import Mathlib

/-!
Verification of the terminal-task-manager dashboard core.

The Rust sources `app.rs`, `system.rs` and `main.rs` are embedded shallowly:
structs become Lean structures, `&mut self` methods become functions
`State → State`, Rust `u16`/`u64`/`usize` become `Nat` with explicit
saturation where a cast saturates, `f32` fractions become exact rationals,
and operations that can panic (index out of bounds, unsigned underflow)
return `Option`.  Modules of the repository that are not among the three
given sources (`console.rs`, `util.rs`, the nom command grammar in
`command_handler`/`parser`/`cmd`) are modelled from the specification and
carry a doc comment saying so.
-/

namespace Ttm

/-- Modelled from the spec: `util.rs` (not among the sources) defines the
sort-field enumeration `SortBy` with fields CPU and MEM. -/
inductive SortBy where
  | CPU
  | MEM
deriving DecidableEq, Repr

/-- Modelled from the spec: `util.rs` (not among the sources) defines
`SortDirection` with the two values ASC and DESC. -/
inductive SortDirection where
  | ASC
  | DESC
deriving DecidableEq, Repr

/-- Modelled from the spec: `util.rs` (not among the sources) defines the
UI mode enumeration; only a single `Main` mode exists. -/
inductive Mode where
  | Main
deriving DecidableEq, Repr

/-- Modelled from the spec: the typed command produced by the grammar, a
combined `Sort` variant carrying a field and a direction. -/
inductive Command where
  | Sort (field : SortBy) (direction : SortDirection)
deriving DecidableEq, Repr

/-- Modelled from the spec: the parse-error kinds of the command grammar.
`MalformedCmd` stands for the spec's generic malformed-syntax fallback
(trailing garbage or unexpected end of input). -/
inductive CmdError where
  | UnknownVerb
  | UnknownField
  | UnknownDirection
  | MalformedCmd
  | ParseErr
deriving DecidableEq, Repr

/-- Modelled from the spec: each error kind renders a one-line diagnostic
(`CmdError::display` in the missing `cmd.rs`). -/
def CmdError.display : CmdError → String
  | .UnknownVerb => "unknown command"
  | .UnknownField => "unknown sort field"
  | .UnknownDirection => "unknown sort direction"
  | .MalformedCmd => "malformed command"
  | .ParseErr => "error parsing command"

/-- Modelled from the spec: the debug-formatted description of an applied
command that the executor appends to the console log
(Rust `format!` with the Debug formatter). -/
def Command.debugFmt : Command → String
  | .Sort .CPU .ASC => "Sort(CPU, ASC)"
  | .Sort .CPU .DESC => "Sort(CPU, DESC)"
  | .Sort .MEM .ASC => "Sort(MEM, ASC)"
  | .Sort .MEM .DESC => "Sort(MEM, DESC)"

/-- Accumulator-style splitting of a character list on spaces, dropping
empty tokens. -/
def tokenizeAux : List Char → List Char → List String
  | acc, [] => if acc = [] then [] else [String.mk acc.reverse]
  | acc, c :: cs =>
    if c = ' ' then
      if acc = [] then tokenizeAux [] cs
      else String.mk acc.reverse :: tokenizeAux [] cs
    else tokenizeAux (c :: acc) cs

/-- Modelled from the spec: tokenisation of a console line, splitting on
spaces and dropping empty tokens (whitespace tolerance). -/
def tokenize (input : String) : List String :=
  tokenizeAux [] input.data

/-- Modelled from the spec: the `field := "cpu" | "mem"` grammar rule. -/
def parseField (tok : String) : Option SortBy :=
  if tok = "cpu" then some SortBy.CPU
  else if tok = "mem" then some SortBy.MEM
  else none

/-- Modelled from the spec: the `direction := "asc" | "desc"` grammar rule. -/
def parseDirection (tok : String) : Option SortDirection :=
  if tok = "asc" then some SortDirection.ASC
  else if tok = "desc" then some SortDirection.DESC
  else none

/-- Modelled from the spec: `handle_cmd` of the missing `command_handler`
module, the line-oriented grammar
`sort_command := "sort" WS field (WS direction)?`.  The nom combinator runs
on `CompleteStr`, so it never reports an incomplete input: every line yields
a typed `Command` or a `CmdError`, which `Except` captures exactly.  A
missing direction defaults to DESC (the application default); a missing
field or trailing garbage is the malformed-syntax fallback. -/
def handle_cmd (input : String) : Except CmdError Command :=
  match tokenize input with
  | [] => .error CmdError.MalformedCmd
  | verb :: rest =>
    if verb = "sort" then
      match rest with
      | [] => .error CmdError.MalformedCmd
      | ftok :: rest2 =>
        match parseField ftok with
        | none => .error CmdError.UnknownField
        | some field =>
          match rest2 with
          | [] => .ok (Command.Sort field SortDirection.DESC)
          | dtok :: rest3 =>
            match parseDirection dtok with
            | none => .error CmdError.UnknownDirection
            | some dir =>
              if rest3 = [] then .ok (Command.Sort field dir)
              else .error CmdError.MalformedCmd
    else .error CmdError.UnknownVerb

/-- Modelled from the spec: the `Console` of the missing `console.rs` —
a line-input buffer, an append-only scrollback log, and a visibility flag. -/
structure Console where
  input : String
  log : List String
  visible : Bool
deriving DecidableEq, Repr

/-- Modelled from the spec: `Console::new` starts with an empty buffer, an
empty log, and the console hidden. -/
def Console.new : Console :=
  { input := "", log := [], visible := false }

/-- Modelled from the spec: `clear_input` drains the buffer atomically,
returning its contents and leaving it empty. -/
def Console.clear_input (c : Console) : String × Console :=
  (c.input, { c with input := "" })

/-- Modelled from the spec: `write` appends one rendered line to the log. -/
def Console.write (c : Console) (line : String) : Console :=
  { c with log := c.log ++ [line] }

/-- Modelled from the spec: a printable character is appended at the
logical end of the input buffer. -/
def Console.append_input (c : Console) (ch : Char) : Console :=
  { c with input := c.input.push ch }

/-- Modelled from the spec: backspace removes the last character of the
input buffer and is a no-op when the buffer is empty. -/
def Console.backspace (c : Console) : Console :=
  { c with input := c.input.dropRight 1 }

/-- Modelled from the spec: `/` toggles the console visibility flag. -/
def Console.toggle_visibility (c : Console) : Console :=
  { c with visible := !c.visible }

/-- `tui::layout::Rect` as used for the stored terminal geometry. -/
structure Rect where
  x : Nat
  y : Nat
  width : Nat
  height : Nat
deriving DecidableEq, Repr

def Rect.new (x y width height : Nat) : Rect :=
  { x := x, y := y, width := width, height := height }

/-- The `App` struct of `app.rs`. -/
structure App where
  mode : Mode
  processes_sort_by : SortBy
  processes_sort_direction : SortDirection
  size : Rect
  console : Console
deriving DecidableEq, Repr

/-- `App::new` of `app.rs`. -/
def App.new : App :=
  { mode := Mode.Main
    processes_sort_by := SortBy.CPU
    processes_sort_direction := SortDirection.DESC
    size := Rect.new 0 0 0 0
    console := Console.new }

/-- `App::toggle_sort_direction` of `app.rs`: flips ASC and DESC. -/
def App.toggle_sort_direction (app : App) : App :=
  match app.processes_sort_direction with
  | SortDirection.ASC => { app with processes_sort_direction := SortDirection.DESC }
  | SortDirection.DESC => { app with processes_sort_direction := SortDirection.ASC }

/-- `App::process_command` of `app.rs`: drains the console buffer, runs the
command grammar on it, and writes the debug rendering of the parsed command
(on success) or the error's rendered message (on failure) to the console
log.  In the source the error arm unwraps the nom error context to recover
the custom `CmdError` and falls back to `CmdError::ParseErr` for a
non-custom nom error; the modelled grammar returns the custom error
directly, so the unwrap always succeeds.  The source's remaining arm (a nom
`Incomplete`) is unreachable on `CompleteStr` and has no counterpart here. -/
def App.process_command (app : App) : App :=
  match app.console.clear_input with
  | (input, console1) =>
    match handle_cmd input with
    | .ok cmd => { app with console := console1.write cmd.debugFmt }
    | .error e => { app with console := console1.write e.display }

/-- The state of the `sysinfo` OS metrics provider as visible through the
interface `system.rs` uses: the processor list (index 0 is the aggregate
entry, indices at least 1 are per-core) with each processor's usage
fraction, and the memory figures.  `f32` usage fractions are modelled as
exact rationals. -/
structure ProviderState where
  processors : List ℚ
  total_memory : ℕ
  used_memory : ℕ
  free_memory : ℕ
deriving DecidableEq, Repr

/-- Rust `f32::round`: rounds half away from zero.  For a non-negative
argument it coincides with Mathlib's `round` (half towards positive). -/
def rustRound (q : ℚ) : ℤ :=
  if 0 ≤ q then round q else -round (-q)

/-- `(p.get_cpu_usage() * 100.0).round() as u64` of `system.rs` line 46:
the float-to-unsigned `as` cast saturates, clamping negatives to 0 (via
`Int.toNat`) and overlarge values to the maximum of `u64`. -/
def pct_u64 (raw : ℚ) : ℕ :=
  min (rustRound (raw * 100)).toNat (2 ^ 64 - 1)

/-- `(p.get_cpu_usage() * 100.0).round() as u16` of `system.rs` line 60,
with the saturating cast clamping to the maximum of `u16`. -/
def pct_u16 (raw : ℚ) : ℕ :=
  min (rustRound (raw * 100)).toNat (2 ^ 16 - 1)

/-- `push` then `remove(0)` on a history vector (`system.rs` lines 47-48
and 53-54): append the new sample at the end, then evict index 0. -/
def histUpdate (h : List ℕ) (v : ℕ) : List ℕ :=
  (h ++ [v]).drop 1

/-- The `System` struct of `system.rs` (the owned `sysinfo::System` handle
is factored out as the explicit `ProviderState` argument of the
operations). -/
structure System where
  cpu_usage_history : List ℕ
  cpu_current_usage : ℕ
  cpu_num_cores : ℕ
  mem_total : ℕ
  mem_free : ℕ
  mem_used : ℕ
  mem_usage_history : List ℕ
  cpu_core_usages : List ℕ
deriving DecidableEq, Repr

/-- `System::new` of `system.rs`: history width is `initial_size / 2`
(integer division on `u16`), both histories start as zero vectors of that
width, `cpu_num_cores` is the processor-list length minus one — an
unsigned `usize` subtraction that underflows (modelled as `none`) when the
list is empty — and `cpu_core_usages` starts empty. -/
def System.new (prov : ProviderState) (initial_size : ℕ) : Option System :=
  let history_width := initial_size / 2
  match prov.processors with
  | [] => none
  | _ :: _ =>
    some
      { cpu_usage_history := List.replicate history_width 0
        cpu_current_usage := 0
        cpu_num_cores := prov.processors.length - 1
        mem_total := prov.total_memory
        mem_free := 0
        mem_used := 0
        mem_usage_history := List.replicate history_width 0
        cpu_core_usages := [] }

/-- `System::update` of `system.rs`: refresh, read the aggregate usage from
processor 0 (an index that is out of bounds — modelled as `none` — when
the list is empty), push-and-evict both histories, copy the memory figures,
and recompute the per-core list from the processors after index 0. -/
def System.update (s : System) (prov : ProviderState) : Option System :=
  match prov.processors with
  | [] => none
  | p0 :: rest =>
    some
      { s with
        cpu_current_usage := pct_u64 p0
        cpu_usage_history := histUpdate s.cpu_usage_history (pct_u64 p0)
        mem_used := prov.used_memory
        mem_free := prov.free_memory
        mem_usage_history := histUpdate s.mem_usage_history prov.used_memory
        cpu_core_usages := rest.map pct_u16 }

/-- Iterated `System::update` over a sequence of provider states, one per
sampling tick; propagates a panic (`none`) of any tick. -/
def run_updates : System → List ProviderState → Option System
  | s, [] => some s
  | s, p :: ps =>
    match s.update p with
    | none => none
    | some s' => run_updates s' ps

/-- `tui::layout::Constraint` as used by `main.rs`. -/
inductive Constraint where
  | Length (n : ℕ)
  | Percentage (n : ℕ)
  | Min (n : ℕ)
deriving DecidableEq, Repr

/-- `cpu_core_contraints` of `main.rs`: one `Length(3)` slot per core plus
a trailing `Min(0)` filler. -/
def cpu_core_contraints (cpu_num_cores : ℕ) : List Constraint :=
  List.replicate cpu_num_cores (Constraint.Length 3) ++ [Constraint.Min 0]

/-- `main_view_constraints` of `main.rs` lines 75-83: the outer vertical
split — core overview sized
`Length(((cpu_core_contraints.len() - 1) * 3) as u16)`, where the
usize-to-u16 `as` cast truncates, i.e. wraps modulo `2 ^ 16` — process
area `Min(0)`, console log `Percentage(20)` when the console is visible
and `Percentage(0)` otherwise, input line `Length(3)`. -/
def main_view_constraints (cpu_num_cores : ℕ) (console_visible : Bool) : List Constraint :=
  let cc := cpu_core_contraints cpu_num_cores
  if console_visible then
    [Constraint.Length (((cc.length - 1) * 3) % 2 ^ 16), Constraint.Min 0,
      Constraint.Percentage 20, Constraint.Length 3]
  else
    [Constraint.Length (((cc.length - 1) * 3) % 2 ^ 16), Constraint.Min 0,
      Constraint.Percentage 0, Constraint.Length 3]

/-- The state of the UI loop of `main.rs`: the `App`, the UI-visible
system state, and the pending contents of the mpsc channel (front =
oldest).  The sampling thread owns its own `System` and sends the updated
snapshot over the channel; the UI loop `try_recv`s it each frame. -/
structure MainState where
  app : App
  system : System
  channel : List System
deriving DecidableEq, Repr

/-- `app.size = terminal.size()?` at the top of each UI frame
(`main.rs` line 62): a terminal resize reaches the state only through this
assignment. -/
def resize_frame (st : MainState) (r : Rect) : MainState :=
  { st with app := { st.app with size := r } }

/-- `mpsc::Receiver::try_recv`: pop the oldest pending message if any,
never blocking. -/
def try_recv (ch : List System) : Option System × List System :=
  match ch with
  | [] => (none, [])
  | s :: rest => (some s, rest)

/-- `if let Ok(updated_system) = system_rx.try_recv() { app.system = updated_system }`
of `main.rs` lines 64-66: a pending snapshot wholesale replaces the
UI-visible system state; when none is pending the frame keeps the previous
one without waiting. -/
def recv_frame (st : MainState) : MainState :=
  match try_recv st.channel with
  | (some s, ch) => { st with system := s, channel := ch }
  | (none, ch) => { st with channel := ch }

/-- One iteration of the sampling thread (`main.rs` lines 53-59): update
the sampler-owned system from the provider and send the result over the
channel — exactly one send per 1-second tick (the sleep is abstracted; the
update's panic on an empty processor list propagates as `none`). -/
def sampler_tick (sampler : System) (st : MainState) (prov : ProviderState) :
    Option (System × MainState) :=
  match sampler.update prov with
  | none => none
  | some s' => some (s', { st with channel := st.channel ++ [s'] })

/-- The opposite sort direction (the spec's `toggle` on the enumeration). -/
def SortDirection.opposite : SortDirection → SortDirection
  | SortDirection.ASC => SortDirection.DESC
  | SortDirection.DESC => SortDirection.ASC

/-! Concrete objects used by the witness theorems. -/

/-- A provider reporting no processors at all. -/
def provEmpty : ProviderState := ⟨[], 0, 0, 0⟩

/-- A provider reporting one (aggregate-only) processor entry. -/
def provOne : ProviderState := ⟨[0], 16, 5, 7⟩

/-- A provider reporting three processor entries (aggregate plus two
cores). -/
def provThree : ProviderState := ⟨[0, 1, 1], 16, 5, 7⟩

/-- The system produced by `System::new provOne 2`. -/
def sysOne : System := ⟨[0], 0, 0, 16, 0, 0, [0], []⟩

/-- The system produced by `System::new provThree 4`. -/
def sysThree : System := ⟨[0, 0], 0, 2, 16, 0, 0, [0, 0], []⟩

/-- The system produced by updating `sysOne` from `provOne`. -/
def sysOne' : System :=
  ⟨histUpdate [0] (pct_u64 0), pct_u64 0, 0, 16, 7, 5, histUpdate [0] 5, []⟩

/-- The system produced by updating `sysThree` from `provThree`. -/
def sysThree' : System :=
  ⟨histUpdate [0, 0] (pct_u64 0), pct_u64 0, 2, 16, 7, 5, histUpdate [0, 0] 5,
    [pct_u16 1, pct_u16 1]⟩

/-- The app whose console buffer holds the line `sort cpu asc`. -/
def appSortCpuAsc : App :=
  { App.new with console := { Console.new with input := "sort cpu asc" } }

/-- A UI-loop state with an empty channel. -/
def mainA : MainState := ⟨App.new, sysOne, []⟩

/-- A UI-loop state with one pending snapshot. -/
def mainB : MainState := ⟨App.new, sysOne, [sysOne']⟩

/-! Helper lemmas shared by the claim theorems. -/

theorem toggle_dir_eq (app : App) :
    (App.toggle_sort_direction app).processes_sort_direction =
      app.processes_sort_direction.opposite := by
  cases h : app.processes_sort_direction <;>
    simp [App.toggle_sort_direction, h, SortDirection.opposite]

theorem opposite_opposite (d : SortDirection) : d.opposite.opposite = d := by
  cases d <;> rfl

theorem toggle_iterate_even (n : ℕ) (app : App) :
    (App.toggle_sort_direction^[2 * n] app).processes_sort_direction =
      app.processes_sort_direction := by
  induction n generalizing app with
  | zero => rfl
  | succ k ih =>
    have h2 : 2 * (k + 1) = 2 * k + 2 := by ring
    have hsq : App.toggle_sort_direction^[2] app =
        App.toggle_sort_direction (App.toggle_sort_direction app) := by
      rw [Function.iterate_succ_apply', Function.iterate_one]
    rw [h2, Function.iterate_add_apply, ih, hsq, toggle_dir_eq, toggle_dir_eq,
      opposite_opposite]

theorem process_command_fields (app : App) :
    app.process_command.processes_sort_by = app.processes_sort_by ∧
    app.process_command.processes_sort_direction = app.processes_sort_direction ∧
    app.process_command.mode = app.mode ∧
    app.process_command.size = app.size ∧
    app.process_command.console.visible = app.console.visible ∧
    app.process_command.console.input = "" ∧
    app.process_command.console.log.length = app.console.log.length + 1 := by
  cases h : handle_cmd app.console.input <;>
    simp [App.process_command, Console.clear_input, Console.write, h]

/-! Claim theorems. -/

/-- C1 counterexample: the claim says that submitting the buffer
`sort cpu asc` sets the sort direction to ASC.  On the code it does not:
the line parses successfully to `Sort(CPU, ASC)`, yet after
`process_command` the sort direction of the freshly constructed app is
still DESC — `process_command` only logs the parsed command and never
assigns the sort fields. -/
theorem C1_counterexample :
    handle_cmd appSortCpuAsc.console.input =
      .ok (Command.Sort SortBy.CPU SortDirection.ASC) ∧
    appSortCpuAsc.process_command.processes_sort_direction = SortDirection.DESC ∧
    SortDirection.DESC ≠ SortDirection.ASC :=
  ⟨rfl, by decide, by decide⟩

/-- C1 (amended): submitting the console buffer via `process_command`
appends exactly one line to `console.log` and leaves the input buffer
empty afterward, and it mutates no other `AppState` field: the sort field,
sort direction, mode, geometry and console visibility are all unchanged —
in particular a well-typed Sort command is logged but never applied to the
sort fields. -/
theorem C1_process_command_isolation (app : App) :
    app.process_command.processes_sort_by = app.processes_sort_by ∧
    app.process_command.processes_sort_direction = app.processes_sort_direction ∧
    app.process_command.mode = app.mode ∧
    app.process_command.size = app.size ∧
    app.process_command.console.visible = app.console.visible ∧
    app.process_command.console.input = "" ∧
    app.process_command.console.log.length = app.console.log.length + 1 :=
  process_command_fields app

/-- C2: processing a submitted line yields exactly one of two outcomes — a
typed `Command` or a `CmdError` — and in both cases exactly one line is
appended to `console.log` (the command's rendering on success, the error's
rendered message on failure); no input leaves the log untouched. -/
theorem C2_processing_total (app : App) :
    (∃ cmd : Command, handle_cmd app.console.input = .ok cmd ∧
      app.process_command.console.log = app.console.log ++ [cmd.debugFmt]) ∨
    (∃ e : CmdError, handle_cmd app.console.input = .error e ∧
      app.process_command.console.log = app.console.log ++ [e.display]) := by
  cases h : handle_cmd app.console.input with
  | ok cmd =>
    exact Or.inl ⟨cmd, rfl,
      by simp [App.process_command, Console.clear_input, Console.write, h]⟩
  | error e =>
    exact Or.inr ⟨e, rfl,
      by simp [App.process_command, Console.clear_input, Console.write, h]⟩

/-- C4: `toggle_sort_direction` is involutive — after `2n` calls the
direction equals the initial one and after `2n+1` calls its opposite — a
single call flips ASC to DESC and DESC to ASC, and no other `App` field is
changed by a call. -/
theorem C4_toggle_involutive :
    (∀ app : App,
      (App.toggle_sort_direction app).processes_sort_direction =
        app.processes_sort_direction.opposite ∧
      App.new.toggle_sort_direction.processes_sort_direction = SortDirection.ASC ∧
      (App.toggle_sort_direction app).mode = app.mode ∧
      (App.toggle_sort_direction app).processes_sort_by = app.processes_sort_by ∧
      (App.toggle_sort_direction app).size = app.size ∧
      (App.toggle_sort_direction app).console = app.console) ∧
    (∀ (app : App) (n : ℕ),
      (App.toggle_sort_direction^[2 * n] app).processes_sort_direction =
        app.processes_sort_direction ∧
      (App.toggle_sort_direction^[2 * n + 1] app).processes_sort_direction =
        app.processes_sort_direction.opposite) := by
  constructor
  · intro app
    refine ⟨toggle_dir_eq app, by decide, ?_, ?_, ?_, ?_⟩ <;>
      cases h : app.processes_sort_direction <;>
        simp [App.toggle_sort_direction, h]
  · intro app n
    refine ⟨toggle_iterate_even n app, ?_⟩
    rw [Function.iterate_succ_apply, toggle_iterate_even n _, toggle_dir_eq]

theorem main_view_spec (n : ℕ) (visible : Bool) :
    (main_view_constraints n visible).head? =
      some (Constraint.Length ((3 * n) % 2 ^ 16)) ∧
    (main_view_constraints n visible)[2]? =
      some (Constraint.Percentage (if visible then 20 else 0)) ∧
    (main_view_constraints n visible).length = 4 := by
  cases visible <;>
    simp [main_view_constraints, cpu_core_contraints, Nat.mul_comm]

/-- C6 counterexample: the claim says the first region is sized to exactly
`3 * core_count` rows for every core count; the source truncates the row
count through a usize-to-u16 `as` cast, so at `core_count = 21846` the
program produces `Length 2` (65538 mod 2^16), not `Length 65538`. -/
theorem C6_counterexample :
    (main_view_constraints 21846 false).head? = some (Constraint.Length 2) ∧
    (2 : ℕ) ≠ 3 * 21846 := by
  constructor
  · rw [(main_view_spec 21846 false).1]
    norm_num
  · norm_num

/-- C6 (amended): in the outer vertical split the first region's
constraint is `Length ((3 * core_count) mod 2 ^ 16)` rows — the u16
truncation of the source's `as` cast, equal to `3 * core_count` whenever
that product fits in a u16, i.e. for every realistic core count up to
21845 — and the console-log region's constraint (index 2) is
`Percentage 0` when the console is hidden and `Percentage 20` when it is
visible, for every core count and visibility state. -/
theorem C6_layout_constraints :
    (∀ (cpu_num_cores : ℕ) (visible : Bool),
      (main_view_constraints cpu_num_cores visible).head? =
        some (Constraint.Length ((3 * cpu_num_cores) % 2 ^ 16)) ∧
      (main_view_constraints cpu_num_cores visible)[2]? =
        some (Constraint.Percentage (if visible then 20 else 0)) ∧
      (main_view_constraints cpu_num_cores visible).length = 4) ∧
    (∀ (cpu_num_cores : ℕ) (visible : Bool), 3 * cpu_num_cores < 2 ^ 16 →
      (main_view_constraints cpu_num_cores visible).head? =
        some (Constraint.Length (3 * cpu_num_cores))) := by
  refine ⟨main_view_spec, ?_⟩
  intro n visible hlt
  rw [(main_view_spec n visible).1, Nat.mod_eq_of_lt hlt]

/-- C6 witness: a concrete four-core layout with the console visible. -/
theorem C6_layout_constraints_witness :
    ((main_view_constraints 4 true).head? =
        some (Constraint.Length ((3 * 4) % 2 ^ 16)) ∧
      (main_view_constraints 4 true)[2]? =
        some (Constraint.Percentage 20) ∧
      (main_view_constraints 4 true).length = 4) ∧
    (main_view_constraints 4 true).head? = some (Constraint.Length (3 * 4)) :=
  ⟨C6_layout_constraints.1 4 true, C6_layout_constraints.2 4 true (by decide)⟩

theorem histUpdate_length (h : List ℕ) (v : ℕ) :
    (histUpdate h v).length = h.length := by
  simp [histUpdate]

theorem histUpdate_eq_drop (h : List ℕ) (v : ℕ) (hne : h ≠ []) :
    histUpdate h v = h.drop 1 ++ [v] := by
  cases h with
  | nil => exact absurd rfl hne
  | cons a t => simp [histUpdate]

theorem histUpdate_getLast (h : List ℕ) (v : ℕ) (hne : h ≠ []) :
    (histUpdate h v).getLast? = some v := by
  cases h with
  | nil => exact absurd rfl hne
  | cons a t => simp [histUpdate]

theorem update_eq (s : System) (p : ProviderState) (p0 : ℚ) (rest : List ℚ)
    (hp : p.processors = p0 :: rest) :
    s.update p = some
      { s with
        cpu_current_usage := pct_u64 p0
        cpu_usage_history := histUpdate s.cpu_usage_history (pct_u64 p0)
        mem_used := p.used_memory
        mem_free := p.free_memory
        mem_usage_history := histUpdate s.mem_usage_history p.used_memory
        cpu_core_usages := rest.map pct_u16 } := by
  simp [System.update, hp]

theorem update_lengths (s : System) (p : ProviderState) (s' : System)
    (h : s.update p = some s') :
    s'.cpu_usage_history.length = s.cpu_usage_history.length ∧
    s'.mem_usage_history.length = s.mem_usage_history.length ∧
    s'.cpu_num_cores = s.cpu_num_cores := by
  cases hp : p.processors with
  | nil => simp [System.update, hp] at h
  | cons p0 rest =>
    rw [update_eq s p p0 rest hp] at h
    obtain rfl := Option.some.inj h
    refine ⟨?_, ?_, rfl⟩ <;> simp [histUpdate_length]

theorem run_updates_lengths (provs : List ProviderState) :
    ∀ s s' : System, run_updates s provs = some s' →
      s'.cpu_usage_history.length = s.cpu_usage_history.length ∧
      s'.mem_usage_history.length = s.mem_usage_history.length ∧
      s'.cpu_num_cores = s.cpu_num_cores := by
  induction provs with
  | nil =>
    intro s s' h
    obtain rfl := Option.some.inj h
    exact ⟨rfl, rfl, rfl⟩
  | cons p ps ih =>
    intro s s' h
    unfold run_updates at h
    cases hu : s.update p with
    | none => rw [hu] at h; cases h
    | some sm =>
      rw [hu] at h
      obtain ⟨c1, c2, c3⟩ := update_lengths s p sm hu
      obtain ⟨d1, d2, d3⟩ := ih sm s' h
      exact ⟨d1.trans c1, d2.trans c2, d3.trans c3⟩

theorem new_eq (prov : ProviderState) (w : ℕ) (p0 : ℚ) (rest : List ℚ)
    (hp : prov.processors = p0 :: rest) :
    System.new prov w = some
      { cpu_usage_history := List.replicate (w / 2) 0
        cpu_current_usage := 0
        cpu_num_cores := prov.processors.length - 1
        mem_total := prov.total_memory
        mem_free := 0
        mem_used := 0
        mem_usage_history := List.replicate (w / 2) 0
        cpu_core_usages := [] } := by
  simp [System.new, hp]

theorem new_fields (prov : ProviderState) (w : ℕ) (s0 : System)
    (h : System.new prov w = some s0) :
    s0.cpu_usage_history = List.replicate (w / 2) 0 ∧
    s0.mem_usage_history = List.replicate (w / 2) 0 ∧
    s0.cpu_num_cores = prov.processors.length - 1 ∧
    s0.cpu_core_usages = [] := by
  cases hp : prov.processors with
  | nil => simp [System.new, hp] at h
  | cons p0 rest =>
    rw [new_eq prov w p0 rest hp] at h
    obtain rfl := Option.some.inj h
    refine ⟨rfl, rfl, ?_, rfl⟩
    show prov.processors.length - 1 = (p0 :: rest).length - 1
    rw [hp]

theorem run_from_new_lengths (prov0 : ProviderState) (w : ℕ) (s0 : System)
    (provs : List ProviderState) (s : System) (hn : System.new prov0 w = some s0)
    (hr : run_updates s0 provs = some s) :
    s.cpu_usage_history.length = w / 2 ∧ s.mem_usage_history.length = w / 2 := by
  obtain ⟨e1, e2, _, _⟩ := new_fields prov0 w s0 hn
  obtain ⟨l1, l2, _⟩ := run_updates_lengths provs s0 s hr
  constructor
  · rw [l1, e1, List.length_replicate]
  · rw [l2, e2, List.length_replicate]

theorem run_updates_cons (s : System) (p : ProviderState)
    (ps : List ProviderState) :
    run_updates s (p :: ps) =
      match s.update p with
      | none => none
      | some s1 => run_updates s1 ps := rfl

theorem run_updates_snoc (provs : List ProviderState) (p : ProviderState) :
    ∀ s s' : System, run_updates s (provs ++ [p]) = some s' ↔
      ∃ sm, run_updates s provs = some sm ∧ sm.update p = some s' := by
  induction provs with
  | nil =>
    intro s s'
    rw [List.nil_append]
    constructor
    · intro h
      rw [run_updates_cons] at h
      cases hu : s.update p with
      | none =>
        rw [hu] at h
        exact Option.noConfusion h
      | some sm =>
        rw [hu] at h
        exact ⟨s, rfl, hu.trans (congrArg some (Option.some.inj h))⟩
    · rintro ⟨sm, hsm, hu⟩
      obtain rfl : s = sm := Option.some.inj hsm
      rw [run_updates_cons, hu]
      rfl
  | cons q qs ih =>
    intro s s'
    rw [List.cons_append, run_updates_cons]
    cases hu : s.update q with
    | none =>
      constructor
      · intro h
        exact Option.noConfusion h
      · rintro ⟨sm, hsm, _⟩
        rw [run_updates_cons, hu] at hsm
        exact Option.noConfusion hsm
    | some s1 =>
      constructor
      · intro h
        obtain ⟨sm2, h1, h2⟩ := (ih s1 s').mp h
        refine ⟨sm2, ?_, h2⟩
        rw [run_updates_cons, hu]
        exact h1
      · rintro ⟨sm, hsm, hu2⟩
        rw [run_updates_cons, hu] at hsm
        exact (ih s1 s').mpr ⟨sm, hsm, hu2⟩

/-- C3: each history buffer has the fixed capacity `initial_size / 2` set
at construction after every number of updates; each update evicts exactly
the one oldest element and appends exactly the one newest element (strict
FIFO), so (for a non-trivial capacity) the last element after the final
update equals the most recently sampled value. -/
theorem C3_history_fifo :
    (∀ (prov0 : ProviderState) (w : ℕ) (s0 : System)
        (provs : List ProviderState) (s : System),
      System.new prov0 w = some s0 → run_updates s0 provs = some s →
      s.cpu_usage_history.length = w / 2 ∧ s.mem_usage_history.length = w / 2) ∧
    (∀ (s : System) (p : ProviderState) (s' : System) (p0 : ℚ) (rest : List ℚ),
      p.processors = p0 :: rest → s.update p = some s' →
      (s.cpu_usage_history ≠ [] →
        s'.cpu_usage_history = s.cpu_usage_history.drop 1 ++ [pct_u64 p0] ∧
        s'.cpu_usage_history.getLast? = some (pct_u64 p0)) ∧
      (s.mem_usage_history ≠ [] →
        s'.mem_usage_history = s.mem_usage_history.drop 1 ++ [p.used_memory] ∧
        s'.mem_usage_history.getLast? = some p.used_memory)) ∧
    (∀ (prov0 : ProviderState) (w : ℕ) (s0 : System)
        (provs : List ProviderState) (p : ProviderState) (s : System)
        (p0 : ℚ) (rest : List ℚ),
      System.new prov0 w = some s0 → 1 ≤ w / 2 → p.processors = p0 :: rest →
      run_updates s0 (provs ++ [p]) = some s →
      s.cpu_usage_history.getLast? = some (pct_u64 p0) ∧
      s.mem_usage_history.getLast? = some p.used_memory) := by
  refine ⟨?_, ?_, ?_⟩
  · exact run_from_new_lengths
  · intro s p s' p0 rest hp hu
    rw [update_eq s p p0 rest hp] at hu
    obtain rfl := Option.some.inj hu
    constructor
    · intro hne
      exact ⟨histUpdate_eq_drop _ _ hne, histUpdate_getLast _ _ hne⟩
    · intro hne
      exact ⟨histUpdate_eq_drop _ _ hne, histUpdate_getLast _ _ hne⟩
  · intro prov0 w s0 provs p s p0 rest hn hw hp hr
    obtain ⟨sm, hsm, hu⟩ := (run_updates_snoc provs p s0 s).mp hr
    have hlen := run_from_new_lengths prov0 w s0 provs sm hn hsm
    have hc : sm.cpu_usage_history ≠ [] := by
      intro hnil
      rw [hnil] at hlen
      simp at hlen
      omega
    have hm : sm.mem_usage_history ≠ [] := by
      intro hnil
      rw [hnil] at hlen
      simp at hlen
      omega
    rw [update_eq sm p p0 rest hp] at hu
    obtain rfl := Option.some.inj hu
    exact ⟨histUpdate_getLast _ _ hc, histUpdate_getLast _ _ hm⟩

/-- C3 witness: the concrete one-processor provider with a width-2
terminal — capacity 1 — after one update. -/
theorem C3_history_fifo_witness :
    (sysOne'.cpu_usage_history.length = 2 / 2 ∧
      sysOne'.mem_usage_history.length = 2 / 2) ∧
    ((sysOne.cpu_usage_history ≠ [] →
        sysOne'.cpu_usage_history =
          sysOne.cpu_usage_history.drop 1 ++ [pct_u64 0] ∧
        sysOne'.cpu_usage_history.getLast? = some (pct_u64 0)) ∧
      (sysOne.mem_usage_history ≠ [] →
        sysOne'.mem_usage_history =
          sysOne.mem_usage_history.drop 1 ++ [provOne.used_memory] ∧
        sysOne'.mem_usage_history.getLast? = some provOne.used_memory)) ∧
    (sysOne'.cpu_usage_history.getLast? = some (pct_u64 0) ∧
      sysOne'.mem_usage_history.getLast? = some provOne.used_memory) :=
  ⟨C3_history_fifo.1 provOne 2 sysOne [provOne] sysOne' rfl rfl,
   C3_history_fifo.2.1 sysOne provOne sysOne' 0 [] rfl rfl,
   C3_history_fifo.2.2 provOne 2 sysOne [] provOne sysOne' 0 [] rfl (by decide)
     rfl rfl⟩

/-- C5 counterexample: the claim says `cpu_core_usages` has exactly
`core_count` entries at every point in the System's lifetime; right after
construction from a three-processor provider, `core_count` is 2 but
`cpu_core_usages` is the empty vector. -/
theorem C5_counterexample :
    System.new provThree 4 = some sysThree ∧
    sysThree.cpu_num_cores = 2 ∧
    sysThree.cpu_core_usages.length = 0 ∧
    (0 : ℕ) ≠ 2 :=
  ⟨rfl, rfl, rfl, by decide⟩

/-- C5 (amended): `core_count` is fixed once at construction as the first
processor-list length minus one and never re-derived (every update carries
it over unchanged); `cpu_core_usages` starts empty, and after each update
it is recomputed in full with exactly (current processor-list length − 1)
entries — which equals `core_count` whenever the provider reports as many
processors as at construction. -/
theorem C5_core_usages :
    (∀ (prov0 : ProviderState) (w : ℕ) (s0 : System),
      System.new prov0 w = some s0 →
      s0.cpu_num_cores = prov0.processors.length - 1 ∧
      s0.cpu_core_usages = []) ∧
    (∀ (s : System) (p : ProviderState) (s' : System),
      s.update p = some s' →
      s'.cpu_num_cores = s.cpu_num_cores ∧
      s'.cpu_core_usages.length = p.processors.length - 1) ∧
    (∀ (s0 : System) (provs : List ProviderState) (s : System),
      run_updates s0 provs = some s → s.cpu_num_cores = s0.cpu_num_cores) ∧
    (∀ (s : System) (p : ProviderState) (s' : System),
      s.update p = some s' → p.processors.length - 1 = s.cpu_num_cores →
      s'.cpu_core_usages.length = s'.cpu_num_cores) := by
  have hupd : ∀ (s : System) (p : ProviderState) (s' : System),
      s.update p = some s' →
      s'.cpu_num_cores = s.cpu_num_cores ∧
      s'.cpu_core_usages.length = p.processors.length - 1 := by
    intro s p s' h
    cases hp : p.processors with
    | nil => simp [System.update, hp] at h
    | cons p0 rest =>
      rw [update_eq s p p0 rest hp] at h
      obtain rfl := Option.some.inj h
      exact ⟨rfl, by simp [hp]⟩
  refine ⟨?_, hupd, ?_, ?_⟩
  · intro prov0 w s0 h
    obtain ⟨_, _, e3, e4⟩ := new_fields prov0 w s0 h
    exact ⟨e3, e4⟩
  · intro s0 provs s h
    exact (run_updates_lengths provs s0 s h).2.2
  · intro s p s' h hfix
    obtain ⟨c1, c2⟩ := hupd s p s' h
    rw [c2, c1, hfix]

/-- C5 witness: the three-processor provider, width-4 terminal, one
update. -/
theorem C5_core_usages_witness :
    (sysThree.cpu_num_cores = provThree.processors.length - 1 ∧
      sysThree.cpu_core_usages = []) ∧
    (sysThree'.cpu_num_cores = sysThree.cpu_num_cores ∧
      sysThree'.cpu_core_usages.length = provThree.processors.length - 1) ∧
    sysThree'.cpu_num_cores = sysThree.cpu_num_cores ∧
    sysThree'.cpu_core_usages.length = sysThree'.cpu_num_cores :=
  ⟨C5_core_usages.1 provThree 4 sysThree rfl,
   C5_core_usages.2.1 sysThree provThree sysThree' rfl,
   C5_core_usages.2.2.1 sysThree [provThree] sysThree' rfl,
   C5_core_usages.2.2.2 sysThree provThree sysThree' rfl rfl⟩

/-- C7: the per-frame resize assignment updates only the stored terminal
geometry `app.size` — every other `App` field, the UI-visible system state
and the channel are untouched — and the history capacity fixed at
construction as `initial terminal width / 2` is preserved by every later
sequence of sampling updates: no operation after construction recomputes
it. -/
theorem C7_resize_frame_effect :
    (∀ (st : MainState) (r : Rect),
      (resize_frame st r).app.size = r ∧
      (resize_frame st r).app.mode = st.app.mode ∧
      (resize_frame st r).app.processes_sort_by = st.app.processes_sort_by ∧
      (resize_frame st r).app.processes_sort_direction =
        st.app.processes_sort_direction ∧
      (resize_frame st r).app.console = st.app.console ∧
      (resize_frame st r).system = st.system ∧
      (resize_frame st r).channel = st.channel) ∧
    (∀ (prov0 : ProviderState) (w : ℕ) (s0 : System)
        (provs : List ProviderState) (s : System),
      System.new prov0 w = some s0 → run_updates s0 provs = some s →
      s.cpu_usage_history.length = w / 2 ∧
      s.mem_usage_history.length = w / 2) := by
  constructor
  · intro st r
    refine ⟨rfl, rfl, rfl, rfl, rfl, rfl, rfl⟩
  · exact run_from_new_lengths

/-- C7 witness: resizing a concrete loop state and running a concrete
update sequence. -/
theorem C7_resize_frame_effect_witness :
    ((resize_frame mainA (Rect.new 1 2 3 4)).app.size = Rect.new 1 2 3 4 ∧
      (resize_frame mainA (Rect.new 1 2 3 4)).app.mode = mainA.app.mode ∧
      (resize_frame mainA (Rect.new 1 2 3 4)).app.processes_sort_by =
        mainA.app.processes_sort_by ∧
      (resize_frame mainA (Rect.new 1 2 3 4)).app.processes_sort_direction =
        mainA.app.processes_sort_direction ∧
      (resize_frame mainA (Rect.new 1 2 3 4)).app.console = mainA.app.console ∧
      (resize_frame mainA (Rect.new 1 2 3 4)).system = mainA.system ∧
      (resize_frame mainA (Rect.new 1 2 3 4)).channel = mainA.channel) ∧
    (sysOne'.cpu_usage_history.length = 2 / 2 ∧
      sysOne'.mem_usage_history.length = 2 / 2) :=
  ⟨C7_resize_frame_effect.1 mainA (Rect.new 1 2 3 4),
   C7_resize_frame_effect.2 provOne 2 sysOne [provOne] sysOne' rfl rfl⟩

/-- C8: each frame's channel read is the non-blocking `try_recv`: when a
snapshot is pending it wholesale replaces the UI-visible system state (and
is consumed from the channel); when none is pending the frame keeps the
previous state without waiting; and one sampler tick performs exactly one
send, appending exactly the freshly updated snapshot to the channel. -/
theorem C8_nonblocking_channel :
    (∀ (st : MainState) (s : System) (rest : List System),
      st.channel = s :: rest →
      (recv_frame st).system = s ∧ (recv_frame st).channel = rest ∧
      (recv_frame st).app = st.app) ∧
    (∀ st : MainState, st.channel = [] → recv_frame st = st) ∧
    (∀ (sampler : System) (st : MainState) (prov : ProviderState)
        (sampler' : System) (st' : MainState),
      sampler_tick sampler st prov = some (sampler', st') →
      st'.channel = st.channel ++ [sampler'] ∧ st'.app = st.app ∧
      st'.system = st.system ∧ sampler.update prov = some sampler') := by
  refine ⟨?_, ?_, ?_⟩
  · intro st s rest hch
    simp [recv_frame, try_recv, hch]
  · intro st hch
    cases st with
    | mk app system channel =>
      simp only at hch
      subst hch
      rfl
  · intro sampler st prov sampler' st' h
    cases hu : sampler.update prov with
    | none => simp [sampler_tick, hu] at h
    | some s1 =>
      simp only [sampler_tick, hu, Option.some.injEq, Prod.mk.injEq] at h
      obtain ⟨rfl, rfl⟩ := h
      exact ⟨rfl, rfl, rfl, rfl⟩

/-- C8 witness: a pending snapshot is consumed, an empty channel leaves the
frame state unchanged, and one concrete sampler tick appends one
snapshot. -/
theorem C8_nonblocking_channel_witness :
    ((recv_frame mainB).system = sysOne' ∧ (recv_frame mainB).channel = [] ∧
      (recv_frame mainB).app = mainB.app) ∧
    recv_frame mainA = mainA ∧
    (mainB.channel = mainA.channel ++ [sysOne'] ∧ mainB.app = mainA.app ∧
      mainB.system = mainA.system ∧ sysOne.update provOne = some sysOne') :=
  ⟨C8_nonblocking_channel.1 mainB sysOne' [] rfl,
   C8_nonblocking_channel.2.1 mainA rfl,
   C8_nonblocking_channel.2.2 sysOne mainA provOne sysOne' mainB rfl⟩

theorem rustRound_of_nonneg (q : ℚ) (h : 0 ≤ q) : rustRound q = round q := by
  simp [rustRound, h]

theorem round_le_of_le {x y : ℚ} (h : x ≤ y) : round x ≤ round y := by
  rw [round_eq, round_eq]
  exact Int.floor_le_floor (by linarith)

theorem pct_eq_round (raw : ℚ) (h0 : 0 ≤ raw) (h1 : raw ≤ 1) :
    pct_u64 raw = (round (raw * 100)).toNat ∧
    pct_u16 raw = (round (raw * 100)).toNat := by
  have hnn : (0 : ℚ) ≤ raw * 100 := by positivity
  have hle : raw * 100 ≤ 100 := by nlinarith
  have h100 : round ((100 : ℚ)) = 100 := by
    rw [show ((100 : ℚ)) = ((100 : ℤ) : ℚ) by norm_num, round_intCast]
  have hr : round (raw * 100) ≤ 100 := h100 ▸ round_le_of_le hle
  have htn : (round (raw * 100)).toNat ≤ 100 := by
    have := Int.toNat_le_toNat hr
    simpa using this
  refine ⟨?_, ?_⟩
  · unfold pct_u64
    rw [rustRound_of_nonneg _ hnn]
    exact Nat.min_eq_left (le_trans htn (by norm_num))
  · unfold pct_u16
    rw [rustRound_of_nonneg _ hnn]
    exact Nat.min_eq_left (le_trans htn (by norm_num))

theorem map_pct_u16_eq (l : List ℚ) (h : ∀ q ∈ l, 0 ≤ q ∧ q ≤ 1) :
    l.map pct_u16 = l.map fun q => (round (q * 100)).toNat := by
  induction l with
  | nil => rfl
  | cons q qs ih =>
    have hq := h q (by simp)
    have hqs : ∀ r ∈ qs, 0 ≤ r ∧ r ≤ 1 := fun r hr => h r (by simp [hr])
    simp only [List.map_cons]
    rw [(pct_eq_round q hq.1 hq.2).2, ih hqs]

/-- C9: when every usage fraction reported by the provider lies in the unit
interval, each sampled percentage (the overall CPU usage and every per-core
usage) equals `round(raw_fraction * 100)` converted to the unsigned integer
domain (`Int.toNat`); the saturation of the Rust `as` cast never engages. -/
theorem C9_percentage_rounding (s : System) (p : ProviderState) (s' : System)
    (p0 : ℚ) (rest : List ℚ) (hp : p.processors = p0 :: rest)
    (hu : s.update p = some s') (h00 : 0 ≤ p0) (h01 : p0 ≤ 1)
    (hrest : ∀ q ∈ rest, 0 ≤ q ∧ q ≤ 1) :
    s'.cpu_current_usage = (round (p0 * 100)).toNat ∧
    s'.cpu_core_usages = rest.map fun q => (round (q * 100)).toNat := by
  rw [update_eq s p p0 rest hp] at hu
  obtain rfl := Option.some.inj hu
  constructor
  · exact (pct_eq_round p0 h00 h01).1
  · exact map_pct_u16_eq rest hrest

/-- C9 witness: the three-processor provider with fractions 0, 1, 1. -/
theorem C9_percentage_rounding_witness :
    (0 : ℚ) ≤ 0 ∧ (0 : ℚ) ≤ 1 ∧ (∀ q ∈ [(1 : ℚ), 1], 0 ≤ q ∧ q ≤ 1) ∧
    sysThree'.cpu_current_usage = (round ((0 : ℚ) * 100)).toNat ∧
    sysThree'.cpu_core_usages =
      [(1 : ℚ), 1].map fun q => (round (q * 100)).toNat :=
  ⟨by decide, by decide, by decide,
   C9_percentage_rounding sysThree provThree sysThree' 0 [1, 1] rfl rfl
     (by decide) (by decide) (by decide)⟩

/-- C10: `System::new` and `System::update` are total exactly on providers
whose processor list is non-empty: with an empty list, `new` underflows the
unsigned length-minus-one and `update` indexes element 0 out of bounds
(both modelled as `none`); with at least one processor entry both
operations succeed. -/
theorem C10_nonempty_processor_precondition :
    (∀ (prov : ProviderState) (w : ℕ) (s : System), prov.processors = [] →
      System.new prov w = none ∧ s.update prov = none) ∧
    (∀ (prov : ProviderState) (w : ℕ) (s : System), prov.processors ≠ [] →
      (System.new prov w).isSome = true ∧ (s.update prov).isSome = true) := by
  constructor
  · intro prov w s h
    exact ⟨by simp [System.new, h], by simp [System.update, h]⟩
  · intro prov w s h
    cases hp : prov.processors with
    | nil => exact absurd hp h
    | cons p0 rest =>
      exact ⟨by simp [System.new, hp], by simp [System.update, hp]⟩

/-- C10 witness: the empty provider fails both operations; the
one-processor provider succeeds in both. -/
theorem C10_nonempty_processor_precondition_witness :
    (System.new provEmpty 2 = none ∧ sysOne.update provEmpty = none) ∧
    ((System.new provOne 2).isSome = true ∧
      (sysOne.update provOne).isSome = true) :=
  ⟨C10_nonempty_processor_precondition.1 provEmpty 2 sysOne rfl,
   C10_nonempty_processor_precondition.2 provOne 2 sysOne (by decide)⟩

end Ttm
